import Mathlib

/- Verification of hypervisor/arch/x86/guest/vm.c (ACRN hypervisor): a shallow
   embedding of the e820 memory-map carving engine, the ServiceOS guest
   address-space construction, the VM lifecycle operations (create, shutdown,
   pause, reset), the vLAPIC aggregate-mode tracker and the UUID registry
   lookup, together with theorems checking the design specification against
   the code.  Machine integers (uint64_t) are modelled as Nat with explicit
   reduction modulo 2^64 where the code performs wrapping arithmetic. -/

namespace AcrnVm

/-! ### uint64 arithmetic -/

/-- Modulus of the uint64 type, written as a literal so that linear
arithmetic automation can treat reduction modulo it directly. -/
def pow64 : Nat := 18446744073709551616

theorem pow64_eq : pow64 = 2 ^ 64 := by norm_num [pow64]

/-- Wrapping uint64 addition (operands assumed reduced below `pow64`). -/
def add64 (a b : Nat) : Nat := (a + b) % pow64

/-- Wrapping uint64 subtraction (operands assumed reduced below `pow64`). -/
def sub64 (a b : Nat) : Nat := (a + pow64 - b % pow64) % pow64

theorem add64_eq {a b : Nat} (h : a + b < pow64) : add64 a b = a + b :=
  Nat.mod_eq_of_lt h

theorem sub64_eq {a b : Nat} (hba : b ≤ a) (ha : a < pow64) : sub64 a b = a - b := by
  have hb : b % pow64 = b := Nat.mod_eq_of_lt (lt_of_le_of_lt hba ha)
  unfold sub64
  rw [hb]
  have h1 : a + pow64 - b = (a - b) + pow64 := by omega
  rw [h1, Nat.add_mod_right]
  exact Nat.mod_eq_of_lt (by omega)

/-! ### The e820 memory map

The entry type values are those of the platform e820 interface (declared in
e820.h, outside this translation unit): usable RAM is 1, reserved is 2. -/

def E820_TYPE_RAM : Nat := 1

def E820_TYPE_RESERVED : Nat := 2

/-- One entry of an e820 memory map (struct e820_entry): a base address, a
length and a type, all uint64 values. -/
structure e820_entry where
  baseaddr : Nat
  length : Nat
  type : Nat
deriving DecidableEq

/-- Exclusive end address of an entry as the code computes it:
`entry_end = entry->baseaddr + entry->length` (wrapping uint64 addition). -/
def entry_end (en : e820_entry) : Nat := add64 en.baseaddr en.length

/-- The zero-initialised `new_entry` local of `filter_mem_from_sos_e820`
(`struct e820_entry entry, new_entry = {0};`). -/
def new_entry_init : e820_entry := { baseaddr := 0, length := 0, type := 0 }

/-- One iteration of the loop body of `filter_mem_from_sos_e820` (vm.c lines
226..264): given the exclusion range `[start_pa, end_pa)`, the current entry
and the pending `new_entry` accumulator, it returns the updated entry and the
(possibly overwritten) accumulator.  The five guarded cases appear in source
order. -/
def filter_one (start_pa end_pa : Nat) (en acc : e820_entry) : e820_entry × e820_entry :=
  let entry_start := en.baseaddr
  let entryEnd := entry_end en
  if en.type ≠ E820_TYPE_RAM ∨ entryEnd ≤ start_pa ∨ entry_start ≥ end_pa then
    (en, acc)
  else if entry_start < start_pa ∧ entryEnd ≤ end_pa then
    ({ en with length := sub64 start_pa entry_start }, acc)
  else if entry_start < start_pa ∧ entryEnd > end_pa then
    ({ en with length := sub64 start_pa entry_start },
      { baseaddr := end_pa, length := sub64 entryEnd end_pa, type := E820_TYPE_RAM })
  else if entry_start ≥ start_pa ∧ entryEnd ≤ end_pa then
    ({ en with type := E820_TYPE_RESERVED }, acc)
  else if entry_start ≥ start_pa ∧ entry_start < end_pa ∧ entryEnd > end_pa then
    ({ en with baseaddr := end_pa, length := sub64 entryEnd end_pa }, acc)
  else (en, acc)

/-- The loop of `filter_mem_from_sos_e820` over the live prefix of the table,
threading the `new_entry` accumulator. -/
def filter_go (start_pa end_pa : Nat) :
    List e820_entry → e820_entry → List e820_entry × e820_entry
  | [], acc => ([], acc)
  | en :: rest, acc =>
    let p := filter_one start_pa end_pa en acc
    let q := filter_go start_pa end_pa rest p.2
    (p.1 :: q.1, q.2)

/-- `filter_mem_from_sos_e820` (vm.c lines 218..276) as a function on the live
prefix of the `sos_ve820` table: run the loop over the `entries_count` entries
present on entry, then, if the pending `new_entry` has positive length, append
it as one further entry (the source bumps `entries_count` and asserts it stays
within `E820_MAX_ENTRIES`; the table is modelled as a list, so the capacity
assertion has no counterpart here). -/
def filter_mem_from_sos_e820 (table : List e820_entry) (start_pa end_pa : Nat) :
    List e820_entry :=
  let r := filter_go start_pa end_pa table new_entry_init
  if r.2.length > 0 then r.1 ++ [r.2] else r.1

/-! ### Structural decomposition of the filter -/

/-- In-place update the loop applies to one entry (the first component of
`filter_one`, which does not depend on the accumulator). -/
def filter_entry (start_pa end_pa : Nat) (en : e820_entry) : e820_entry :=
  (filter_one start_pa end_pa en new_entry_init).1

/-- Condition under which the loop body reaches its append-a-new-entry case
(the entry straddles the whole exclusion range). -/
def straddles (start_pa end_pa : Nat) (en : e820_entry) : Prop :=
  en.type = E820_TYPE_RAM ∧ entry_end en > start_pa ∧ en.baseaddr < end_pa ∧
    en.baseaddr < start_pa ∧ entry_end en > end_pa

instance (start_pa end_pa : Nat) (en : e820_entry) : Decidable (straddles start_pa end_pa en) := by
  unfold straddles
  infer_instance

/-- The entry the straddling case records in `new_entry`. -/
def tail_entry (start_pa end_pa : Nat) (en : e820_entry) : e820_entry :=
  { baseaddr := end_pa, length := sub64 (entry_end en) end_pa, type := E820_TYPE_RAM }

theorem filter_one_fst (s e : Nat) (en acc : e820_entry) :
    (filter_one s e en acc).1 = filter_entry s e en := by
  unfold filter_entry filter_one
  dsimp only
  split_ifs <;> rfl

theorem filter_one_snd (s e : Nat) (en acc : e820_entry) :
    (filter_one s e en acc).2 =
      if straddles s e en then tail_entry s e en else acc := by
  by_cases hst : straddles s e en
  · rw [if_pos hst]
    obtain ⟨h1, h2, h3, h4, h5⟩ := hst
    unfold filter_one
    dsimp only
    rw [if_neg (by push_neg; exact ⟨h1, by omega, by omega⟩),
      if_neg (by rintro ⟨-, hc⟩; omega), if_pos ⟨h4, h5⟩]
    rfl
  · rw [if_neg hst]
    unfold filter_one
    dsimp only
    split_ifs with h1 h2 h3 <;> try rfl
    exact absurd ⟨(by push_neg at h1; exact h1.1), (by push_neg at h1; omega),
      (by push_neg at h1; omega), h3.1, h3.2⟩ hst

theorem filter_go_fst (s e : Nat) (t : List e820_entry) (acc : e820_entry) :
    (filter_go s e t acc).1 = t.map (filter_entry s e) := by
  induction t generalizing acc with
  | nil => rfl
  | cons en rest ih => simp [filter_go, filter_one_fst, ih]

theorem filter_go_snd (s e : Nat) (t : List e820_entry) (acc : e820_entry) :
    (filter_go s e t acc).2 =
      t.foldl (fun a en => if straddles s e en then tail_entry s e en else a) acc := by
  induction t generalizing acc with
  | nil => rfl
  | cons en rest ih => simp [filter_go, filter_one_snd, ih]

theorem fold_tail_of_no_straddle (s e : Nat) (t : List e820_entry) (acc : e820_entry)
    (h : ∀ en ∈ t, ¬ straddles s e en) :
    t.foldl (fun a en => if straddles s e en then tail_entry s e en else a) acc = acc := by
  induction t generalizing acc with
  | nil => rfl
  | cons en rest ih =>
    have hen : ¬ straddles s e en := h en (by simp)
    simp only [List.foldl_cons, if_neg hen]
    exact ih acc fun x hx => h x (by simp [hx])

theorem fold_tail_of_unique_straddle (s e : Nat) (t1 t2 : List e820_entry)
    (str : e820_entry) (acc : e820_entry)
    (hstr : straddles s e str) (h2 : ∀ en ∈ t2, ¬ straddles s e en) :
    (t1 ++ str :: t2).foldl
        (fun a en => if straddles s e en then tail_entry s e en else a) acc =
      tail_entry s e str := by
  rw [List.foldl_append, List.foldl_cons, if_pos hstr]
  exact fold_tail_of_no_straddle s e t2 _ h2

theorem filter_mem_eq (s e : Nat) (t : List e820_entry) :
    filter_mem_from_sos_e820 t s e =
      if (t.foldl (fun a en => if straddles s e en then tail_entry s e en else a)
            new_entry_init).length > 0
      then t.map (filter_entry s e) ++
        [t.foldl (fun a en => if straddles s e en then tail_entry s e en else a)
          new_entry_init]
      else t.map (filter_entry s e) := by
  unfold filter_mem_from_sos_e820
  dsimp only
  rw [filter_go_fst, filter_go_snd]

theorem filter_entry_skip (s e : Nat) (en : e820_entry)
    (h : en.type ≠ E820_TYPE_RAM ∨ entry_end en ≤ s ∨ en.baseaddr ≥ e) :
    filter_entry s e en = en := by
  unfold filter_entry filter_one
  dsimp only
  rw [if_pos h]

theorem filter_entry_straddle (s e : Nat) (en : e820_entry) (h : straddles s e en) :
    filter_entry s e en = { en with length := sub64 s en.baseaddr } := by
  obtain ⟨h1, h2, h3, h4, h5⟩ := h
  unfold filter_entry filter_one
  dsimp only
  rw [if_neg (by push_neg; exact ⟨h1, by omega, by omega⟩),
    if_neg (by rintro ⟨-, hc⟩; omega), if_pos ⟨h4, h5⟩]

/-! ### Well-formedness of tables -/

/-- The values of a table are genuine uint64 data with no wrapped end address. -/
def table_wf (t : List e820_entry) : Prop :=
  ∀ en ∈ t, en.baseaddr + en.length < pow64

/-- Two entries describe disjoint address intervals. -/
def entry_disjoint (x y : e820_entry) : Prop :=
  x.baseaddr + x.length ≤ y.baseaddr ∨ y.baseaddr + y.length ≤ x.baseaddr

instance (x y : e820_entry) : Decidable (entry_disjoint x y) := by
  unfold entry_disjoint
  infer_instance

theorem map_id_of {α : Type} {l : List α} {f : α → α} (h : ∀ x ∈ l, f x = x) :
    l.map f = l := by
  induction l with
  | nil => rfl
  | cons x xs ih =>
    simp only [List.map_cons, h x (by simp), List.cons.injEq, true_and]
    exact ih fun y hy => h y (by simp [hy])

/-- An entry of a table that is interval-disjoint from an entry enclosing the
exclusion range is skipped by the loop, and in particular does not straddle
the range. -/
theorem filter_entry_of_disjoint (s e : Nat) (x en : e820_entry)
    (hwx : x.baseaddr + x.length < pow64)
    (hd : entry_disjoint x en ∨ entry_disjoint en x)
    (hs : en.baseaddr < s) (hse : s ≤ e) (he : e < en.baseaddr + en.length) :
    filter_entry s e x = x ∧ ¬ straddles s e x := by
  have hex : entry_end x = x.baseaddr + x.length := add64_eq hwx
  have hskip : entry_end x ≤ s ∨ x.baseaddr ≥ e := by
    rcases hd with h | h <;> unfold entry_disjoint at h <;> rw [hex] <;> omega
  refine ⟨filter_entry_skip s e x ?_, ?_⟩
  · rcases hskip with h | h
    · exact Or.inr (Or.inl h)
    · exact Or.inr (Or.inr h)
  · rintro ⟨-, hx2, hx3, -, -⟩
    omega

/-- Amended claim C4.  Excluding a range `[s, e)` strictly interior to a RAM
entry of a table of pairwise-disjoint entries truncates that entry to the
leading RAM remainder `[baseaddr, s)` and appends one trailing RAM remainder
`[e, baseaddr + length)`; no Reserved entry is produced (the interior is
simply dropped from the table), and the original length decomposes as leading
remainder + interior + trailing remainder. -/
theorem filter_interior_split_amended
    (t1 t2 : List e820_entry) (en : e820_entry) (s e : Nat)
    (hwf : table_wf (t1 ++ en :: t2))
    (hdisj : (t1 ++ en :: t2).Pairwise entry_disjoint)
    (hRAM : en.type = E820_TYPE_RAM)
    (hs : en.baseaddr < s) (hse : s ≤ e) (he : e < en.baseaddr + en.length) :
    filter_mem_from_sos_e820 (t1 ++ en :: t2) s e =
      (t1 ++ ({ en with length := s - en.baseaddr } : e820_entry) :: t2)
        ++ [{ baseaddr := e, length := en.baseaddr + en.length - e,
              type := E820_TYPE_RAM }] ∧
    en.length = (s - en.baseaddr) + (e - s) + (en.baseaddr + en.length - e) := by
  have hwfen : en.baseaddr + en.length < pow64 := hwf en (by simp)
  have hee : entry_end en = en.baseaddr + en.length := add64_eq hwfen
  have hstr : straddles s e en := by
    refine ⟨hRAM, ?_, by omega, hs, ?_⟩ <;> rw [hee] <;> omega
  obtain ⟨-, hd2, hd12⟩ := List.pairwise_append.mp hdisj
  obtain ⟨hd2en, -⟩ := List.pairwise_cons.mp hd2
  have hside1 : ∀ x ∈ t1, filter_entry s e x = x ∧ ¬ straddles s e x := fun x hx =>
    filter_entry_of_disjoint s e x en (hwf x (by simp [hx]))
      (Or.inl (hd12 x hx en (by simp))) hs hse he
  have hside2 : ∀ x ∈ t2, filter_entry s e x = x ∧ ¬ straddles s e x := fun x hx =>
    filter_entry_of_disjoint s e x en (hwf x (by simp [hx]))
      (Or.inr (hd2en x hx)) hs hse he
  have hfold : (t1 ++ en :: t2).foldl
      (fun a x => if straddles s e x then tail_entry s e x else a) new_entry_init =
      tail_entry s e en :=
    fold_tail_of_unique_straddle s e t1 t2 en _ hstr fun x hx => (hside2 x hx).2
  have htail : tail_entry s e en =
      { baseaddr := e, length := en.baseaddr + en.length - e,
        type := E820_TYPE_RAM } := by
    unfold tail_entry
    rw [hee, sub64_eq (by omega) hwfen]
  have hmap : (t1 ++ en :: t2).map (filter_entry s e) =
      t1 ++ ({ en with length := s - en.baseaddr } : e820_entry) :: t2 := by
    rw [List.map_append, List.map_cons,
      map_id_of (fun x hx => (hside1 x hx).1),
      map_id_of (fun x hx => (hside2 x hx).1),
      filter_entry_straddle s e en hstr,
      sub64_eq (le_of_lt hs) (by omega)]
  constructor
  · rw [filter_mem_eq, hfold, htail,
      if_pos (by simp only []; omega), hmap]
  · omega

/-- Counterexample to claim C4 as stated.  Excluding the strictly interior
range `[10, 20)` from the single RAM entry `[0, 100)` yields a truncated
leading RAM entry and an appended trailing RAM entry; no entry of the result
is typed Reserved, so no Reserved entry replaces the interior. -/
theorem filter_interior_no_reserved_entry_cex :
    filter_mem_from_sos_e820
        [{ baseaddr := 0, length := 100, type := E820_TYPE_RAM }] 10 20 =
      [{ baseaddr := 0, length := 10, type := E820_TYPE_RAM },
       { baseaddr := 20, length := 80, type := E820_TYPE_RAM }] ∧
    (filter_mem_from_sos_e820
        [{ baseaddr := 0, length := 100, type := E820_TYPE_RAM }] 10 20).countP
      (fun en => en.type == E820_TYPE_RESERVED) = 0 := by
  constructor <;> decide

theorem filter_interior_split_amended_witness :
    filter_mem_from_sos_e820
        [{ baseaddr := 0, length := 100, type := E820_TYPE_RAM }] 10 20 =
      [{ baseaddr := 0, length := 10 - 0, type := E820_TYPE_RAM },
       { baseaddr := 20, length := 0 + 100 - 20, type := E820_TYPE_RAM }] ∧
    (100 : Nat) = (10 - 0) + (20 - 10) + (0 + 100 - 20) := by
  exact filter_interior_split_amended [] []
    { baseaddr := 0, length := 100, type := E820_TYPE_RAM } 10 20
    (by intro x hx; simp at hx; subst hx; decide)
    (by simp) rfl (by decide) (by decide) (by decide)

/-! ### RAM coverage of a table -/

/-- The address `a` lies in entry `en` and `en` is typed usable RAM. -/
def covers_ram (en : e820_entry) (a : Nat) : Prop :=
  en.type = E820_TYPE_RAM ∧ en.baseaddr ≤ a ∧ a < entry_end en

instance (en : e820_entry) (a : Nat) : Decidable (covers_ram en a) := by
  unfold covers_ram
  infer_instance

/-- The address `a` is covered by some RAM-typed entry of the table. -/
def ram_covered (t : List e820_entry) (a : Nat) : Prop :=
  ∃ en ∈ t, covers_ram en a

instance (t : List e820_entry) (a : Nat) : Decidable (ram_covered t a) := by
  unfold ram_covered
  infer_instance

theorem ram_covered_append (t1 t2 : List e820_entry) (a : Nat) :
    ram_covered (t1 ++ t2) a ↔ ram_covered t1 a ∨ ram_covered t2 a := by
  constructor
  · rintro ⟨x, hx, hc⟩
    rcases List.mem_append.mp hx with h | h
    · exact Or.inl ⟨x, h, hc⟩
    · exact Or.inr ⟨x, h, hc⟩
  · rintro (⟨x, hx, hc⟩ | ⟨x, hx, hc⟩)
    · exact ⟨x, List.mem_append.mpr (Or.inl hx), hc⟩
    · exact ⟨x, List.mem_append.mpr (Or.inr hx), hc⟩

theorem ram_covered_map (f : e820_entry → e820_entry) (t : List e820_entry) (a : Nat) :
    ram_covered (t.map f) a ↔ ∃ y ∈ t, covers_ram (f y) a := by
  constructor
  · rintro ⟨x, hx, hc⟩
    obtain ⟨y, hy, rfl⟩ := List.mem_map.mp hx
    exact ⟨y, hy, hc⟩
  · rintro ⟨y, hy, hc⟩
    exact ⟨f y, List.mem_map_of_mem f hy, hc⟩

theorem ram_covered_singleton (x : e820_entry) (a : Nat) :
    ram_covered [x] a ↔ covers_ram x a := by
  unfold ram_covered
  simp

/-- A non-straddling entry is rewritten in place so that it covers exactly its
original RAM addresses outside the exclusion range. -/
theorem covers_filter_entry_of_not_straddle (s e a : Nat) (y : e820_entry)
    (hwy : y.baseaddr + y.length < pow64) (hse : s ≤ e) (he : e < pow64)
    (hns : ¬ straddles s e y) :
    covers_ram (filter_entry s e y) a ↔ (covers_ram y a ∧ ¬ (s ≤ a ∧ a < e)) := by
  unfold filter_entry filter_one
  dsimp only
  split_ifs with h1 h2 h3 h4 <;>
    simp only [straddles, covers_ram, entry_end, add64, sub64, pow64, E820_TYPE_RAM,
      E820_TYPE_RESERVED, not_and, not_or, not_lt, not_le, ne_eq] at * <;>
    omega

/-- A straddling entry together with its recorded tail covers exactly the
original RAM addresses outside the exclusion range. -/
theorem covers_filter_entry_of_straddle (s e a : Nat) (y : e820_entry)
    (hwy : y.baseaddr + y.length < pow64) (hse : s ≤ e) (he : e < pow64)
    (hst : straddles s e y) :
    (covers_ram (filter_entry s e y) a ∨ covers_ram (tail_entry s e y) a) ↔
      (covers_ram y a ∧ ¬ (s ≤ a ∧ a < e)) := by
  have hsp : s < pow64 := lt_of_le_of_lt hse he
  have hend : entry_end y = y.baseaddr + y.length := add64_eq hwy
  obtain ⟨hy1, hy2, hy3, hy4, hy5⟩ := hst
  rw [hend] at hy2 hy5
  have hsub1 : sub64 s y.baseaddr = s - y.baseaddr := sub64_eq (le_of_lt hy4) hsp
  have hsub2 : sub64 (entry_end y) e = y.baseaddr + y.length - e := by
    rw [hend]
    exact sub64_eq (le_of_lt hy5) hwy
  have e1 : filter_entry s e y =
      { baseaddr := y.baseaddr, length := s - y.baseaddr, type := y.type } := by
    rw [filter_entry_straddle s e y (by
      refine ⟨hy1, ?_, hy3, hy4, ?_⟩ <;> rw [hend] <;> omega), hsub1]
  have e2 : tail_entry s e y =
      { baseaddr := e, length := y.baseaddr + y.length - e,
        type := E820_TYPE_RAM } := by
    unfold tail_entry
    rw [hsub2]
  rw [e1, e2]
  have c1 : covers_ram
      ({ baseaddr := y.baseaddr, length := s - y.baseaddr,
         type := y.type } : e820_entry) a ↔
      (y.type = E820_TYPE_RAM ∧ y.baseaddr ≤ a ∧ a < s) := by
    unfold covers_ram entry_end add64
    have hx : (y.baseaddr + (s - y.baseaddr)) % pow64 = s := by
      have hs' : y.baseaddr + (s - y.baseaddr) = s := by omega
      rw [hs']
      exact Nat.mod_eq_of_lt hsp
    rw [show ((⟨y.baseaddr, s - y.baseaddr, y.type⟩ : e820_entry).baseaddr +
        (⟨y.baseaddr, s - y.baseaddr, y.type⟩ : e820_entry).length) % pow64 =
        (y.baseaddr + (s - y.baseaddr)) % pow64 from rfl, hx]
  have c2 : covers_ram
      ({ baseaddr := e, length := y.baseaddr + y.length - e,
         type := E820_TYPE_RAM } : e820_entry) a ↔
      (e ≤ a ∧ a < y.baseaddr + y.length) := by
    unfold covers_ram entry_end add64
    have hx : (e + (y.baseaddr + y.length - e)) % pow64 = y.baseaddr + y.length := by
      have hs' : e + (y.baseaddr + y.length - e) = y.baseaddr + y.length := by omega
      rw [hs']
      exact Nat.mod_eq_of_lt hwy
    rw [show ((⟨e, y.baseaddr + y.length - e, E820_TYPE_RAM⟩ : e820_entry).baseaddr +
        (⟨e, y.baseaddr + y.length - e, E820_TYPE_RAM⟩ : e820_entry).length) % pow64 =
        (e + (y.baseaddr + y.length - e)) % pow64 from rfl, hx]
    simp
  have c3 : covers_ram y a ↔
      (y.type = E820_TYPE_RAM ∧ y.baseaddr ≤ a ∧ a < y.baseaddr + y.length) := by
    unfold covers_ram
    rw [hend]
  rw [c1, c2, c3]
  constructor
  · rintro (⟨h1, h2, h3⟩ | ⟨h2, h3⟩)
    · exact ⟨⟨h1, h2, by omega⟩, by omega⟩
    · exact ⟨⟨hy1, by omega, h3⟩, by omega⟩
  · rintro ⟨⟨h1, h2, h3⟩, h4⟩
    by_cases hc : a < s
    · exact Or.inl ⟨h1, h2, hc⟩
    · exact Or.inr ⟨by omega, h3⟩

/-- Two entries that both straddle the same exclusion range overlap. -/
theorem straddle_not_disjoint (s e : Nat) (x y : e820_entry)
    (hwx : x.baseaddr + x.length < pow64) (hwy : y.baseaddr + y.length < pow64)
    (hx : straddles s e x) (hy : straddles s e y) : ¬ entry_disjoint x y := by
  obtain ⟨-, hx2, -, hx4, -⟩ := hx
  obtain ⟨-, hy2, -, hy4, -⟩ := hy
  simp only [entry_end, add64, pow64] at hx2 hy2
  simp only [pow64] at hwx hwy
  intro h
  unfold entry_disjoint at h
  omega

/-- The pending `new_entry` at the end of the loop is either still the zero
initialiser or the tail recorded for some straddling entry of the table. -/
theorem fold_tail_cases (s e : Nat) (t : List e820_entry) (acc : e820_entry) :
    t.foldl (fun a en => if straddles s e en then tail_entry s e en else a) acc = acc ∨
    ∃ y ∈ t, straddles s e y ∧
      t.foldl (fun a en => if straddles s e en then tail_entry s e en else a) acc =
        tail_entry s e y := by
  induction t generalizing acc with
  | nil => exact Or.inl rfl
  | cons en rest ih =>
    simp only [List.foldl_cons]
    by_cases hen : straddles s e en
    · rw [if_pos hen]
      rcases ih (tail_entry s e en) with h | ⟨y, hy, hsy, h⟩
      · exact Or.inr ⟨en, by simp, hen, h⟩
      · exact Or.inr ⟨y, by simp [hy], hsy, h⟩
    · rw [if_neg hen]
      rcases ih acc with h | ⟨y, hy, hsy, h⟩
      · exact Or.inl h
      · exact Or.inr ⟨y, by simp [hy], hsy, h⟩

/-- Claim C7, main lemma: one exclusion call removes exactly the excluded
addresses from the RAM coverage of a well-formed table of pairwise-disjoint
entries. -/
theorem ram_covered_filter (t : List e820_entry) (s e a : Nat)
    (hwf : table_wf t) (hdisj : t.Pairwise entry_disjoint)
    (hse : s ≤ e) (he : e < pow64) :
    ram_covered (filter_mem_from_sos_e820 t s e) a ↔
      (ram_covered t a ∧ ¬ (s ≤ a ∧ a < e)) := by
  rw [filter_mem_eq]
  by_cases hex : ∃ str ∈ t, straddles s e str
  · obtain ⟨str, hstrmem, hstr⟩ := hex
    obtain ⟨t1, t2, rfl⟩ := List.append_of_mem hstrmem
    have hwstr : str.baseaddr + str.length < pow64 := hwf str (by simp)
    obtain ⟨hd1, hd2, hd12⟩ := List.pairwise_append.mp hdisj
    obtain ⟨hd2str, -⟩ := List.pairwise_cons.mp hd2
    have hnot1 : ∀ x ∈ t1, ¬ straddles s e x := fun x hx hsx =>
      straddle_not_disjoint s e x str (hwf x (by simp [hx])) hwstr hsx hstr
        (hd12 x hx str (by simp))
    have hnot2 : ∀ x ∈ t2, ¬ straddles s e x := fun x hx hsx => by
      have hd : entry_disjoint str x := hd2str x hx
      exact straddle_not_disjoint s e str x hwstr (hwf x (by simp [hx])) hstr hsx hd
    rw [fold_tail_of_unique_straddle s e t1 t2 str new_entry_init hstr hnot2]
    have hend : entry_end str = str.baseaddr + str.length := add64_eq hwstr
    have h5 : entry_end str > e := hstr.2.2.2.2
    have hpos : (tail_entry s e str).length > 0 := by
      show 0 < sub64 (entry_end str) e
      rw [hend] at h5 ⊢
      rw [sub64_eq (le_of_lt h5) hwstr]
      omega
    rw [if_pos hpos, ram_covered_append, ram_covered_map, ram_covered_singleton]
    constructor
    · rintro (⟨y, hy, hc⟩ | hc)
      · rcases List.mem_append.mp hy with h | h
        · have := (covers_filter_entry_of_not_straddle s e a y
            (hwf y (by simp [h])) hse he (hnot1 y h)).mp hc
          exact ⟨⟨y, by simp [h], this.1⟩, this.2⟩
        · rcases List.mem_cons.mp h with rfl | h
          · have := (covers_filter_entry_of_straddle s e a y
              (hwf y (by simp)) hse he hstr).mp (Or.inl hc)
            exact ⟨⟨y, by simp, this.1⟩, this.2⟩
          · have := (covers_filter_entry_of_not_straddle s e a y
              (hwf y (by simp [h])) hse he (hnot2 y h)).mp hc
            exact ⟨⟨y, by simp [h], this.1⟩, this.2⟩
      · have := (covers_filter_entry_of_straddle s e a str hwstr hse he hstr).mp
          (Or.inr hc)
        exact ⟨⟨str, by simp, this.1⟩, this.2⟩
    · rintro ⟨⟨y, hy, hc⟩, hnin⟩
      rcases List.mem_append.mp hy with h | h
      · exact Or.inl ⟨y, by simp [h],
          (covers_filter_entry_of_not_straddle s e a y (hwf y (by simp [h]))
            hse he (hnot1 y h)).mpr ⟨hc, hnin⟩⟩
      · rcases List.mem_cons.mp h with rfl | h
        · rcases (covers_filter_entry_of_straddle s e a y (hwf y (by simp))
            hse he hstr).mpr ⟨hc, hnin⟩ with hcl | hcr
          · exact Or.inl ⟨y, by simp, hcl⟩
          · exact Or.inr hcr
        · exact Or.inl ⟨y, by simp [h],
            (covers_filter_entry_of_not_straddle s e a y (hwf y (by simp [h]))
              hse he (hnot2 y h)).mpr ⟨hc, hnin⟩⟩
  · push_neg at hex
    rw [fold_tail_of_no_straddle s e t _ hex, if_neg (by decide), ram_covered_map]
    constructor
    · rintro ⟨y, hy, hc⟩
      have := (covers_filter_entry_of_not_straddle s e a y (hwf y hy) hse he
        (hex y hy)).mp hc
      exact ⟨⟨y, hy, this.1⟩, this.2⟩
    · rintro ⟨⟨y, hy, hc⟩, hnin⟩
      exact ⟨y, hy, (covers_filter_entry_of_not_straddle s e a y (hwf y hy)
        hse he (hex y hy)).mpr ⟨hc, hnin⟩⟩

/-! ### The filter preserves well-formedness and pairwise disjointness -/

theorem filter_entry_wf (s e : Nat) (y : e820_entry)
    (hwy : y.baseaddr + y.length < pow64) (hse : s ≤ e) (he : e < pow64) :
    (filter_entry s e y).baseaddr + (filter_entry s e y).length < pow64 := by
  unfold filter_entry filter_one
  dsimp only
  split_ifs <;>
    simp only [entry_end, add64, sub64, pow64] at * <;> omega

theorem tail_entry_wf (s e : Nat) (y : e820_entry)
    (hwy : y.baseaddr + y.length < pow64) (hst : straddles s e y) :
    (tail_entry s e y).baseaddr + (tail_entry s e y).length < pow64 := by
  obtain ⟨h1, h2, h3, h4, h5⟩ := hst
  unfold tail_entry
  simp only [entry_end, add64, sub64, pow64] at *
  omega

/-- The interval of the first entry is contained in that of the second. -/
def entry_sub (x y : e820_entry) : Prop :=
  y.baseaddr ≤ x.baseaddr ∧ x.baseaddr + x.length ≤ y.baseaddr + y.length

theorem filter_entry_sub (s e : Nat) (y : e820_entry)
    (hwy : y.baseaddr + y.length < pow64) (hse : s ≤ e) (he : e < pow64) :
    entry_sub (filter_entry s e y) y := by
  unfold entry_sub filter_entry filter_one
  dsimp only
  split_ifs <;>
    simp only [entry_end, add64, sub64, pow64] at * <;> omega

theorem tail_entry_sub (s e : Nat) (y : e820_entry)
    (hwy : y.baseaddr + y.length < pow64) (hse : s ≤ e) (hst : straddles s e y) :
    entry_sub (tail_entry s e y) y := by
  obtain ⟨h1, h2, h3, h4, h5⟩ := hst
  unfold entry_sub tail_entry
  simp only [entry_end, add64, sub64, pow64] at *
  omega

theorem entry_disjoint_symm {x y : e820_entry} (h : entry_disjoint x y) :
    entry_disjoint y x := by
  unfold entry_disjoint at *
  tauto

theorem entry_disjoint_mono (x y x1 y1 : e820_entry) (h : entry_disjoint x y)
    (hx : entry_sub x1 x) (hy : entry_sub y1 y) : entry_disjoint x1 y1 := by
  unfold entry_disjoint entry_sub at *
  omega

theorem pairwise_rel_of_mem {l : List e820_entry} (h : l.Pairwise entry_disjoint)
    {a b : e820_entry} (ha : a ∈ l) (hb : b ∈ l) (hne : a ≠ b) :
    entry_disjoint a b := by
  induction l with
  | nil => cases ha
  | cons x xs ih =>
    obtain ⟨hx, hxs⟩ := List.pairwise_cons.mp h
    rcases List.mem_cons.mp ha with rfl | ha' <;>
      rcases List.mem_cons.mp hb with rfl | hb'
    · exact absurd rfl hne
    · exact hx b hb'
    · exact entry_disjoint_symm (hx a ha')
    · exact ih hxs ha' hb'

theorem table_wf_filter (t : List e820_entry) (s e : Nat)
    (hwf : table_wf t) (hse : s ≤ e) (he : e < pow64) :
    table_wf (filter_mem_from_sos_e820 t s e) := by
  rw [filter_mem_eq]
  split_ifs with hc
  · intro x hx
    rcases List.mem_append.mp hx with h | h
    · obtain ⟨y, hy, rfl⟩ := List.mem_map.mp h
      exact filter_entry_wf s e y (hwf y hy) hse he
    · simp only [List.mem_singleton] at h
      subst h
      rcases fold_tail_cases s e t new_entry_init with hfe | ⟨y, hy, hsy, hfe⟩
      · rw [hfe]
        decide
      · rw [hfe]
        exact tail_entry_wf s e y (hwf y hy) hsy
  · intro x hx
    obtain ⟨y, hy, rfl⟩ := List.mem_map.mp hx
    exact filter_entry_wf s e y (hwf y hy) hse he

theorem pairwise_disjoint_filter (t : List e820_entry) (s e : Nat)
    (hwf : table_wf t) (hdisj : t.Pairwise entry_disjoint)
    (hse : s ≤ e) (he : e < pow64) :
    (filter_mem_from_sos_e820 t s e).Pairwise entry_disjoint := by
  have hmap : (t.map (filter_entry s e)).Pairwise entry_disjoint := by
    rw [List.pairwise_map]
    exact hdisj.imp_of_mem fun {a b} ha hb hr =>
      entry_disjoint_mono _ _ _ _ hr (filter_entry_sub s e a (hwf a ha) hse he)
        (filter_entry_sub s e b (hwf b hb) hse he)
  rw [filter_mem_eq]
  split_ifs with hc
  · apply List.pairwise_append.mpr
    refine ⟨hmap, List.pairwise_singleton _ _, ?_⟩
    intro x hx z hz
    simp only [List.mem_singleton] at hz
    subst hz
    obtain ⟨y, hy, rfl⟩ := List.mem_map.mp hx
    rcases fold_tail_cases s e t new_entry_init with hfe | ⟨y0, hy0, hsy0, hfe⟩
    · rw [hfe] at hc
      exact absurd hc (by decide)
    · rw [hfe]
      by_cases hysame : y = y0
      · subst hysame
        rw [filter_entry_straddle s e y hsy0]
        have hb : y.baseaddr < s := hsy0.2.2.2.1
        have hsp : s < pow64 := lt_of_le_of_lt hse he
        left
        show y.baseaddr + sub64 s y.baseaddr ≤ (tail_entry s e y).baseaddr
        rw [sub64_eq (le_of_lt hb) hsp]
        show y.baseaddr + (s - y.baseaddr) ≤ e
        omega
      · exact entry_disjoint_mono _ _ _ _ (pairwise_rel_of_mem hdisj hy hy0 hysame)
          (filter_entry_sub s e y (hwf y hy) hse he)
          (tail_entry_sub s e y0 (hwf y0 hy0) hse hsy0)
  · exact hmap

/-- Counterexample to claim C7 as stated.  On the table holding the single RAM
entry `[0, 100)`, excluding the two non-overlapping ranges `[0, 50)` and
`[50, 100)` in the two orders yields the region lists
`[Reserved [50, 100)]` and `[Reserved [0, 50)]`, which are not equal as sets
of typed regions. -/
theorem filter_disjoint_order_cex :
    filter_mem_from_sos_e820
        (filter_mem_from_sos_e820
          [{ baseaddr := 0, length := 100, type := E820_TYPE_RAM }] 0 50) 50 100 =
      [{ baseaddr := 50, length := 50, type := E820_TYPE_RESERVED }] ∧
    filter_mem_from_sos_e820
        (filter_mem_from_sos_e820
          [{ baseaddr := 0, length := 100, type := E820_TYPE_RAM }] 50 100) 0 50 =
      [{ baseaddr := 0, length := 50, type := E820_TYPE_RESERVED }] ∧
    ({ baseaddr := 50, length := 50, type := E820_TYPE_RESERVED } : e820_entry) ∉
      [({ baseaddr := 0, length := 50, type := E820_TYPE_RESERVED } : e820_entry)] := by
  refine ⟨by decide, by decide, by decide⟩

/-- Amended claim C7.  For a well-formed table of pairwise-disjoint entries,
excluding two non-overlapping ranges in either order yields region lists that
cover the same RAM addresses (the typed region lists themselves may differ,
as the counterexample shows). -/
theorem filter_disjoint_order_ram_set (t : List e820_entry) (s1 e1 s2 e2 a : Nat)
    (hwf : table_wf t) (hdisj : t.Pairwise entry_disjoint)
    (h1 : s1 ≤ e1) (h2 : s2 ≤ e2) (he1 : e1 < pow64) (he2 : e2 < pow64)
    (hranges : e1 ≤ s2 ∨ e2 ≤ s1) :
    (ram_covered
        (filter_mem_from_sos_e820 (filter_mem_from_sos_e820 t s1 e1) s2 e2) a ↔
      ram_covered
        (filter_mem_from_sos_e820 (filter_mem_from_sos_e820 t s2 e2) s1 e1) a) := by
  rw [ram_covered_filter _ s2 e2 a (table_wf_filter t s1 e1 hwf h1 he1)
      (pairwise_disjoint_filter t s1 e1 hwf hdisj h1 he1) h2 he2,
    ram_covered_filter t s1 e1 a hwf hdisj h1 he1,
    ram_covered_filter _ s1 e1 a (table_wf_filter t s2 e2 hwf h2 he2)
      (pairwise_disjoint_filter t s2 e2 hwf hdisj h2 he2) h1 he1,
    ram_covered_filter t s2 e2 a hwf hdisj h2 he2]
  tauto

theorem filter_disjoint_order_ram_set_witness :
    (ram_covered
        (filter_mem_from_sos_e820 (filter_mem_from_sos_e820
          [{ baseaddr := 0, length := 100, type := E820_TYPE_RAM }] 10 20) 30 40) 5 ↔
      ram_covered
        (filter_mem_from_sos_e820 (filter_mem_from_sos_e820
          [{ baseaddr := 0, length := 100, type := E820_TYPE_RAM }] 30 40) 10 20) 5) :=
  filter_disjoint_order_ram_set
    [{ baseaddr := 0, length := 100, type := E820_TYPE_RAM }] 10 20 30 40 5
    (by intro x hx; simp at hx; subst hx; decide) (by simp)
    (by decide) (by decide) (by decide) (by decide) (Or.inl (by decide))

/-! ### VM data model -/

/-- VM lifecycle states (enum vm_state, vm.h; VM_POWERED_OFF is the zero
value left by the memset in create_vm). -/
inductive vm_state
  | VM_POWERED_OFF
  | VM_CREATED
  | VM_PAUSED
  | VM_STARTED
  | VM_POWERING_OFF
deriving DecidableEq

/-- Local states of a vCPU (enum vcpu_state, vcpu.h, outside this
translation unit). -/
inductive vcpu_state
  | VCPU_INIT
  | VCPU_RUNNING
  | VCPU_PAUSED
  | VCPU_ZOMBIE
  | VCPU_OFFLINE
deriving DecidableEq

/-- Addressing mode of one virtual LAPIC as the queries is_x2apic_enabled and
is_xapic_enabled (vlapic.c, outside this translation unit) report it. -/
inductive vlapic_mode
  | x2apic
  | xapic
  | disabled
deriving DecidableEq

/-- Modelled from the spec: the vCPU subsystem (vcpu.c, outside this
translation unit) owns the per-vCPU state; a vCPU carries its pinned physical
core, its local state, its LAPIC-passthrough flag and its vLAPIC addressing
mode. -/
structure acrn_vcpu where
  pcpu_id : Nat
  state : vcpu_state
  lapic_pt_enabled : Bool
  vlapic_mode : vlapic_mode
deriving DecidableEq

/-- Modelled from the spec: reset_vcpu returns the vCPU to its initial
architectural state. -/
def reset_vcpu (v : acrn_vcpu) : acrn_vcpu := { v with state := vcpu_state.VCPU_INIT }

/-- Modelled from the spec: pause_vcpu parks the vCPU in the given state. -/
def pause_vcpu (v : acrn_vcpu) (st : vcpu_state) : acrn_vcpu := { v with state := st }

/-- Modelled from the spec: offline_vcpu takes the vCPU logically offline. -/
def offline_vcpu (v : acrn_vcpu) : acrn_vcpu :=
  { v with state := vcpu_state.VCPU_OFFLINE }

/-- Modelled from the spec: whether this vCPU runs with LAPIC passthrough. -/
def is_lapic_pt_enabled (v : acrn_vcpu) : Bool := v.lapic_pt_enabled

/-- Modelled from the spec: the vLAPIC of this vCPU uses extended (x2APIC)
addressing. -/
def is_x2apic_enabled (v : acrn_vcpu) : Bool := v.vlapic_mode == vlapic_mode.x2apic

/-- Modelled from the spec: the vLAPIC of this vCPU uses legacy (xAPIC)
addressing. -/
def is_xapic_enabled (v : acrn_vcpu) : Bool := v.vlapic_mode == vlapic_mode.xapic

/-- Aggregate vLAPIC state of a VM (enum vm_vlapic_state, vm.h). -/
inductive vm_vlapic_state
  | VM_VLAPIC_XAPIC
  | VM_VLAPIC_X2APIC
  | VM_VLAPIC_DISABLED
  | VM_VLAPIC_TRANSITION
deriving DecidableEq

/-- Load order of a VM (vm_config.h). -/
inductive load_order
  | SOS_VM
  | PRE_LAUNCHED_VM
  | POST_LAUNCHED_VM
deriving DecidableEq

/-! Guest capability flag bits (vm_config.h, outside this translation unit;
only their distinctness matters for this file). -/

def GUEST_FLAG_SECURE_WORLD_ENABLED : Nat := 1

def GUEST_FLAG_LAPIC_PASSTHROUGH : Nat := 2

def GUEST_FLAG_IO_COMPLETION_POLLING : Nat := 4

def GUEST_FLAG_HIDE_MTRR : Nat := 8

def GUEST_FLAG_RT : Nat := 16

def GUEST_FLAG_HIGHEST_SEVERITY : Nat := 32

/-- Guest flags owned by the device model (DM_OWNED_GUEST_FLAG_MASK). -/
def DM_OWNED_GUEST_FLAG_MASK : Nat :=
  GUEST_FLAG_SECURE_WORLD_ENABLED + GUEST_FLAG_LAPIC_PASSTHROUGH +
    GUEST_FLAG_IO_COMPLETION_POLLING + GUEST_FLAG_RT

/-- Static configuration of one VM (struct acrn_vm_config, vm_config.h): the
fields this translation unit reads or writes. -/
structure acrn_vm_config where
  load_order : load_order
  name : String
  uuid : List Nat
  guest_flags : Nat
  vcpu_num : Nat
  vcpu_affinity : List Nat
  memory_start_hpa : Nat
  memory_size : Nat
deriving DecidableEq

/-- is_rt_vm (vm.c lines 112..117), reading the configuration of the VM
directly in place of the global get_vm_config lookup. -/
def is_rt_vm (config : acrn_vm_config) : Bool :=
  Nat.land config.guest_flags GUEST_FLAG_RT != 0

/-- is_lapic_pt_configured (vm.c lines 102..107). -/
def is_lapic_pt_configured (config : acrn_vm_config) : Bool :=
  Nat.land config.guest_flags GUEST_FLAG_LAPIC_PASSTHROUGH != 0

/-- is_sos_vm (vm.c lines 73..76). -/
def is_sos_vm (config : acrn_vm_config) : Bool :=
  config.load_order == load_order.SOS_VM

/-- is_postlaunched_vm (vm.c lines 82..85). -/
def is_postlaunched_vm (config : acrn_vm_config) : Bool :=
  config.load_order == load_order.POST_LAUNCHED_VM

/-- is_prelaunched_vm (vm.c lines 91..97). -/
def is_prelaunched_vm (config : acrn_vm_config) : Bool :=
  config.load_order == load_order.PRE_LAUNCHED_VM

/-- The per-VM descriptor (struct acrn_vm): the fields this translation unit
manipulates.  Collaborator state created and destroyed through init/deinit
hooks (vpci, vuart, pass-through interrupt entries, the iommu domain and the
EPT paging structures) is modelled as one Boolean liveness flag each. -/
structure acrn_vm where
  vm_id : Nat
  state : vm_state
  uuid : List Nat
  vcpus : List acrn_vcpu
  vlapic_state : vm_vlapic_state
  e820_entries : List e820_entry
  emul_mmio_regions : Nat
  wire_mode : Nat
  sworld_supported : Bool
  sworld_active : Bool
  is_completion_polling : Bool
  vpci_active : Bool
  vuart_active : Bool
  ptdev_active : Bool
  iommu_active : Bool
  ept_active : Bool
deriving DecidableEq

/-- Error numbers (errno.h, outside this translation unit). -/
def EINVAL : Int := 22

def ETIMEDOUT : Int := 110

/-- Wire mode constant VPIC_WIRE_INTR (vpic.h, outside this translation
unit). -/
def VPIC_WIRE_INTR : Nat := 0

/-- pause_vm (vm.c lines 675..702): a void function; the only observable
effect is the updated VM.  Real-time VMs are paused only from
VM_POWERING_OFF or VM_CREATED; otherwise every vCPU is parked as a zombie
and the state becomes VM_PAUSED. -/
def pause_vm (config : acrn_vm_config) (vm : acrn_vm) : acrn_vm :=
  if vm.state ≠ vm_state.VM_PAUSED then
    if is_rt_vm config then
      if vm.state = vm_state.VM_POWERING_OFF ∨ vm.state = vm_state.VM_CREATED then
        { vm with
          vcpus := vm.vcpus.map (fun v => pause_vcpu v vcpu_state.VCPU_ZOMBIE),
          state := vm_state.VM_PAUSED }
      else vm
    else
      { vm with
        vcpus := vm.vcpus.map (fun v => pause_vcpu v vcpu_state.VCPU_ZOMBIE),
        state := vm_state.VM_PAUSED }
  else vm

/-- shutdown_vm (vm.c lines 562..619).  The outcome of start_pcpus (cpu.c,
outside this translation unit) is injected as start_pcpus_ok;
wait_pcpus_offline and sbuf_reset touch no modelled state.  Note the source
sets ret = -ETIMEDOUT when restarting the fenced cores fails and then
unconditionally overwrites it with ret = 0 at line 612, so the returned
status of a completed shutdown is always 0. -/
def shutdown_vm (config : acrn_vm_config) (start_pcpus_ok : Bool) (vm : acrn_vm) :
    Int × acrn_vm × acrn_vm_config :=
  let vm1 := pause_vm config vm
  if vm1.state = vm_state.VM_PAUSED then
    let vm2 := { vm1 with state := vm_state.VM_POWERED_OFF }
    let mask := vm2.vcpus.foldl
      (fun m v => if is_lapic_pt_enabled v then m ||| (2 ^ v.pcpu_id) else m) 0
    let vm3 := { vm2 with vcpus := vm2.vcpus.map (fun v => offline_vcpu (reset_vcpu v)) }
    let ret1 : Int :=
      if is_lapic_pt_configured config && !start_pcpus_ok then -ETIMEDOUT else 0
    let config1 := { config with
      guest_flags := Nat.ldiff config.guest_flags DM_OWNED_GUEST_FLAG_MASK }
    let vm4 := { vm3 with
                 vpci_active := false, vuart_active := false,
                 ptdev_active := false, iommu_active := false,
                 ept_active := false }
    let ret2 : Int := 0
    (ret2, vm4, config1)
  else
    (-EINVAL, vm1, config)

/-- reset_vm (vm.c lines 638..670).  The collaborator calls (vm_sw_loader,
reset_vm_ioreqs, vioapic_reset) touch state outside this translation unit;
destroy_secure_world clears the secure-world active flag, which is
modelled. -/
def reset_vm (config : acrn_vm_config) (vm : acrn_vm) : Int × acrn_vm :=
  if vm.state = vm_state.VM_PAUSED then
    let vm1 := { vm with vcpus := vm.vcpus.map reset_vcpu }
    let vm2 := { vm1 with vlapic_state := vm_vlapic_state.VM_VLAPIC_XAPIC }
    let vm3 := { vm2 with sworld_active := false, state := vm_state.VM_CREATED }
    (0, vm3)
  else (-1, vm)

/-- update_vm_vlapic_state (vm.c lines 806..856): count the vCPUs in x2APIC
and in xAPIC mode under the VM lock, then classify. -/
def update_vm_vlapic_state (vm : acrn_vm) : acrn_vm :=
  let counts := vm.vcpus.foldl
    (fun (c : Nat × Nat) vcpu =>
      if is_x2apic_enabled vcpu then (c.1 + 1, c.2)
      else if is_xapic_enabled vcpu then (c.1, c.2 + 1)
      else c) (0, 0)
  let vcpus_in_x2apic := counts.1
  let vcpus_in_xapic := counts.2
  let vlapic_state :=
    if vcpus_in_x2apic = 0 ∧ vcpus_in_xapic = 0 then
      vm_vlapic_state.VM_VLAPIC_DISABLED
    else if vcpus_in_x2apic ≠ 0 ∧ vcpus_in_xapic ≠ 0 then
      vm_vlapic_state.VM_VLAPIC_TRANSITION
    else if vcpus_in_x2apic ≠ 0 then vm_vlapic_state.VM_VLAPIC_X2APIC
    else vm_vlapic_state.VM_VLAPIC_XAPIC
  { vm with vlapic_state := vlapic_state }

/-- Modelled from the spec: vm_has_matched_uuid (vm.h, outside this
translation unit) compares slot vm_id's UUID with the given one; the registry
is modelled as the list of per-slot UUIDs, whose length is
CONFIG_MAX_VM_NUM. -/
def vm_has_matched_uuid (uuids : List (List Nat)) (vm_id : Nat) (u : List Nat) : Bool :=
  uuids.getD vm_id [] == u

/-- The while loop of get_vmid_by_uuid, with the number of remaining
iterations made explicit. -/
def get_vmid_by_uuid_go (uuids : List (List Nat)) (u : List Nat) :
    Nat → Nat → Nat
  | vm_id, 0 => vm_id
  | vm_id, fuel + 1 =>
    if vm_has_matched_uuid uuids vm_id u then vm_id
    else if vm_id + 1 = uuids.length then vm_id + 1
    else get_vmid_by_uuid_go uuids u (vm_id + 1) fuel

/-- get_vmid_by_uuid (vm.c lines 44..55): scan the slots from 0, stopping at
the first matching slot or when the counter reaches CONFIG_MAX_VM_NUM. -/
def get_vmid_by_uuid (uuids : List (List Nat)) (u : List Nat) : Nat :=
  get_vmid_by_uuid_go uuids u 0 uuids.length

/-! ### Sample fixtures used by concrete evaluations -/

def sample_vcpu : acrn_vcpu :=
  { pcpu_id := 1, state := vcpu_state.VCPU_RUNNING, lapic_pt_enabled := true,
    vlapic_mode := vlapic_mode.xapic }

def sample_vm (st : vm_state) : acrn_vm :=
  { vm_id := 1, state := st, uuid := [7], vcpus := [sample_vcpu],
    vlapic_state := vm_vlapic_state.VM_VLAPIC_XAPIC, e820_entries := [],
    emul_mmio_regions := 0, wire_mode := 0, sworld_supported := false,
    sworld_active := false, is_completion_polling := false, vpci_active := true,
    vuart_active := true, ptdev_active := true, iommu_active := true,
    ept_active := true }

def sample_config (flags : Nat) : acrn_vm_config :=
  { load_order := load_order.POST_LAUNCHED_VM, name := "uos", uuid := [7],
    guest_flags := flags, vcpu_num := 1, vcpu_affinity := [2],
    memory_start_hpa := 0, memory_size := 0 }

/-! ### Claims C3, C5 and C9: disallowed transitions have no effect -/

/-- Claim C3: shutting down a started real-time VM returns -EINVAL (the
InvalidStateTransition status) and leaves the VM, its vCPUs and its
configuration untouched, the state in particular still VM_STARTED. -/
theorem shutdown_rt_started_einval (config : acrn_vm_config) (ok : Bool)
    (vm : acrn_vm) (hrt : is_rt_vm config = true)
    (hst : vm.state = vm_state.VM_STARTED) :
    shutdown_vm config ok vm = (-EINVAL, vm, config) := by
  have hpause : pause_vm config vm = vm := by
    unfold pause_vm
    rw [if_pos (by simp [hst]), if_pos hrt, if_neg (by simp [hst])]
  unfold shutdown_vm
  dsimp only
  rw [hpause, if_neg (by simp [hst])]

theorem shutdown_rt_started_einval_witness :
    shutdown_vm (sample_config GUEST_FLAG_RT) true (sample_vm vm_state.VM_STARTED) =
      (-EINVAL, sample_vm vm_state.VM_STARTED, sample_config GUEST_FLAG_RT) :=
  shutdown_rt_started_einval (sample_config GUEST_FLAG_RT) true
    (sample_vm vm_state.VM_STARTED) (by decide) rfl

/-- Claim C5: resetting a VM that is not paused returns -1 and modifies
nothing: the returned VM is the input VM, every field included. -/
theorem reset_vm_not_paused_no_effect (config : acrn_vm_config) (vm : acrn_vm)
    (h : vm.state ≠ vm_state.VM_PAUSED) :
    reset_vm config vm = (-1, vm) := by
  unfold reset_vm
  rw [if_neg h]

theorem reset_vm_not_paused_no_effect_witness :
    reset_vm (sample_config 0) (sample_vm vm_state.VM_STARTED) =
      (-1, sample_vm vm_state.VM_STARTED) :=
  reset_vm_not_paused_no_effect (sample_config 0) (sample_vm vm_state.VM_STARTED)
    (by decide)

/-- Amended claim C9: pausing a started real-time VM is a silent no-op.  The
source pause_vm is void, so it reports no status; the VM, its state and every
vCPU are returned unchanged, and the failure is observable to shutdown_vm
only through the state remaining different from VM_PAUSED. -/
theorem pause_rt_started_noop (config : acrn_vm_config) (vm : acrn_vm)
    (hrt : is_rt_vm config = true) (hst : vm.state = vm_state.VM_STARTED) :
    pause_vm config vm = vm := by
  unfold pause_vm
  rw [if_pos (by simp [hst]), if_pos hrt, if_neg (by simp [hst])]

theorem pause_rt_started_noop_witness :
    pause_vm (sample_config GUEST_FLAG_RT) (sample_vm vm_state.VM_STARTED) =
      sample_vm vm_state.VM_STARTED :=
  pause_rt_started_noop (sample_config GUEST_FLAG_RT)
    (sample_vm vm_state.VM_STARTED) (by decide) rfl

/-- Status values the claim C9 attributes to pause. -/
inductive pause_status
  | success
  | invalid_state_transition
deriving DecidableEq

/-- Modelled from the spec (the wording of claim C9): a pause operation that
returns an InvalidStateTransition status to its caller for a disallowed pause
of a running real-time VM.  It exists only to be compared with the source
function pause_vm, which is void and returns no status at all. -/
def pause_vm_claimed (config : acrn_vm_config) (vm : acrn_vm) :
    pause_status × acrn_vm :=
  if is_rt_vm config && (vm.state == vm_state.VM_STARTED) then
    (pause_status.invalid_state_transition, vm)
  else (pause_status.success, pause_vm config vm)

/-- Counterexample to claim C9 as stated: at a concrete running real-time VM
the claimed interface returns an InvalidStateTransition status, while the
code's pause_vm — a void function, embedded as a function returning only the
updated VM — returns just the unchanged VM, so no error status reaches its
caller. -/
theorem pause_rt_started_status_mismatch_cex :
    (pause_vm_claimed (sample_config GUEST_FLAG_RT)
        (sample_vm vm_state.VM_STARTED)).1 = pause_status.invalid_state_transition ∧
    pause_vm (sample_config GUEST_FLAG_RT) (sample_vm vm_state.VM_STARTED) =
      sample_vm vm_state.VM_STARTED := by
  refine ⟨by decide, by decide⟩

/-! ### Claim C2: the lost -ETIMEDOUT of shutdown_vm -/

/-- Claim C2 evaluated at its failing input (code bug).  For a VM with LAPIC
passthrough configured whose pause succeeds, shutting down with start_pcpus
failing completes the shutdown — the VM ends VM_POWERED_OFF with all
resources released — but returns 0, not the -ETIMEDOUT the code first stores
into ret and then overwrites with ret = 0 at vm.c line 612. -/
theorem shutdown_start_pcpus_failure_returns_zero :
    is_lapic_pt_configured (sample_config GUEST_FLAG_LAPIC_PASSTHROUGH) = true ∧
    (shutdown_vm (sample_config GUEST_FLAG_LAPIC_PASSTHROUGH) false
        (sample_vm vm_state.VM_STARTED)).1 = 0 ∧
    (shutdown_vm (sample_config GUEST_FLAG_LAPIC_PASSTHROUGH) false
        (sample_vm vm_state.VM_STARTED)).2.1.state = vm_state.VM_POWERED_OFF ∧
    (shutdown_vm (sample_config GUEST_FLAG_LAPIC_PASSTHROUGH) false
        (sample_vm vm_state.VM_STARTED)).2.1.vpci_active = false ∧
    (shutdown_vm (sample_config GUEST_FLAG_LAPIC_PASSTHROUGH) false
        (sample_vm vm_state.VM_STARTED)).2.1.vuart_active = false ∧
    (shutdown_vm (sample_config GUEST_FLAG_LAPIC_PASSTHROUGH) false
        (sample_vm vm_state.VM_STARTED)).2.1.ptdev_active = false ∧
    (shutdown_vm (sample_config GUEST_FLAG_LAPIC_PASSTHROUGH) false
        (sample_vm vm_state.VM_STARTED)).2.1.iommu_active = false ∧
    (shutdown_vm (sample_config GUEST_FLAG_LAPIC_PASSTHROUGH) false
        (sample_vm vm_state.VM_STARTED)).2.1.ept_active = false := by
  decide

/-! ### Claim C8: the UUID lookup sentinel -/

theorem get_vmid_go_spec (uuids : List (List Nat)) (u : List Nat) (fuel : Nat) :
    ∀ vm_id : Nat, vm_id + fuel = uuids.length →
    (get_vmid_by_uuid_go uuids u vm_id fuel = uuids.length ↔
      ∀ j, vm_id ≤ j → j < uuids.length → uuids.getD j [] ≠ u) := by
  induction fuel with
  | zero =>
    intro vm_id h
    simp only [get_vmid_by_uuid_go]
    constructor
    · intro _ j h1 h2
      exact absurd h2 (by omega)
    · intro _
      omega
  | succ fuel ih =>
    intro vm_id h
    simp only [get_vmid_by_uuid_go]
    by_cases hm : vm_has_matched_uuid uuids vm_id u
    · rw [if_pos hm]
      simp only [vm_has_matched_uuid, beq_iff_eq] at hm
      constructor
      · intro he
        exact absurd he (by omega)
      · intro hall
        exact absurd hm (hall vm_id (le_refl _) (by omega))
    · rw [if_neg hm]
      simp only [vm_has_matched_uuid, beq_iff_eq] at hm
      by_cases hend : vm_id + 1 = uuids.length
      · rw [if_pos hend]
        constructor
        · intro _ j h1 h2
          have hj : j = vm_id := by omega
          subst hj
          exact hm
        · intro _
          exact hend
      · rw [if_neg hend, ih (vm_id + 1) (by omega)]
        constructor
        · intro hall j h1 h2
          rcases Nat.eq_or_lt_of_le h1 with heq | hlt
          · subst heq
            exact hm
          · exact hall j (by omega) h2
        · intro hall j h1 h2
          exact hall j (by omega) h2

/-- Claim C8: the linear UUID scan returns the not-found sentinel equal to
the table capacity exactly when no slot's UUID matches. -/
theorem get_vmid_by_uuid_sentinel_iff (uuids : List (List Nat)) (u : List Nat) :
    (get_vmid_by_uuid uuids u = uuids.length ↔ u ∉ uuids) := by
  unfold get_vmid_by_uuid
  rw [get_vmid_go_spec uuids u uuids.length 0 (by omega)]
  constructor
  · intro hall hmem
    obtain ⟨j, hj, hget⟩ := List.getElem_of_mem hmem
    exact hall j (Nat.zero_le _) hj (by
      rw [List.getD_eq_getElem uuids [] hj]
      exact hget)
  · intro hnm j h1 h2 heq
    apply hnm
    rw [← heq, List.getD_eq_getElem uuids [] h2]
    exact List.getElem_mem _

/-! ### Claim C6: vLAPIC aggregate-mode classification -/

theorem vlapic_counts_eq (l : List acrn_vcpu) (a b : Nat) :
    l.foldl
      (fun (c : Nat × Nat) vcpu =>
        if is_x2apic_enabled vcpu then (c.1 + 1, c.2)
        else if is_xapic_enabled vcpu then (c.1, c.2 + 1)
        else c) (a, b) =
    (a + l.countP (fun v => is_x2apic_enabled v),
      b + l.countP (fun v => is_xapic_enabled v)) := by
  induction l generalizing a b with
  | nil => simp
  | cons v rest ih =>
    by_cases h1 : is_x2apic_enabled v
    · have h2 : is_xapic_enabled v = false := by
        simp only [is_x2apic_enabled, beq_iff_eq] at h1
        simp [is_xapic_enabled, h1]
      simp only [List.foldl_cons, if_pos h1, ih, List.countP_cons, h1, h2,
        Bool.false_eq_true, if_true, if_false, Prod.mk.injEq]
      constructor <;> omega
    · by_cases h2 : is_xapic_enabled v
      · simp only [Bool.not_eq_true] at h1
        simp only [List.foldl_cons, h1, h2, Bool.false_eq_true, if_false,
          if_true, ih, List.countP_cons, Prod.mk.injEq]
        constructor <;> omega
      · simp only [Bool.not_eq_true] at h1 h2
        simp only [List.foldl_cons, h1, h2, Bool.false_eq_true, if_false,
          ih, List.countP_cons, Prod.mk.injEq]
        constructor <;> omega

/-- Evaluation form of the aggregate-mode update: the classification depends
only on the two mode counts of the vCPU list. -/
theorem update_vlapic_eval (vm : acrn_vm) :
    (update_vm_vlapic_state vm).vlapic_state =
      if vm.vcpus.countP (fun v => is_x2apic_enabled v) = 0 ∧
          vm.vcpus.countP (fun v => is_xapic_enabled v) = 0 then
        vm_vlapic_state.VM_VLAPIC_DISABLED
      else if vm.vcpus.countP (fun v => is_x2apic_enabled v) ≠ 0 ∧
          vm.vcpus.countP (fun v => is_xapic_enabled v) ≠ 0 then
        vm_vlapic_state.VM_VLAPIC_TRANSITION
      else if vm.vcpus.countP (fun v => is_x2apic_enabled v) ≠ 0 then
        vm_vlapic_state.VM_VLAPIC_X2APIC
      else vm_vlapic_state.VM_VLAPIC_XAPIC := by
  unfold update_vm_vlapic_state
  dsimp only
  rw [vlapic_counts_eq]
  simp

/-- A VM whose vCPUs carry the given list of vLAPIC modes. -/
def sample_vlapic_vm (modes : List vlapic_mode) : acrn_vm :=
  { sample_vm vm_state.VM_STARTED with
    vcpus := modes.map fun m =>
      { pcpu_id := 0, state := vcpu_state.VCPU_RUNNING,
        lapic_pt_enabled := false, vlapic_mode := m } }

/-- Claim C6: the aggregate vLAPIC mode classifies the per-vCPU modes as
Disabled when no vCPU's vLAPIC is enabled, X2Apic when some vCPU uses
extended addressing and none legacy, Xapic when some uses legacy and none
extended, Transition when both kinds are present; and the three concrete
count patterns named by the claim evaluate as stated. -/
theorem update_vlapic_classification (vm : acrn_vm) :
    ((∀ v ∈ vm.vcpus, v.vlapic_mode = vlapic_mode.disabled) →
      (update_vm_vlapic_state vm).vlapic_state =
        vm_vlapic_state.VM_VLAPIC_DISABLED) ∧
    ((∃ v ∈ vm.vcpus, v.vlapic_mode = vlapic_mode.x2apic) →
      (∀ v ∈ vm.vcpus, v.vlapic_mode ≠ vlapic_mode.xapic) →
      (update_vm_vlapic_state vm).vlapic_state =
        vm_vlapic_state.VM_VLAPIC_X2APIC) ∧
    ((∃ v ∈ vm.vcpus, v.vlapic_mode = vlapic_mode.xapic) →
      (∀ v ∈ vm.vcpus, v.vlapic_mode ≠ vlapic_mode.x2apic) →
      (update_vm_vlapic_state vm).vlapic_state =
        vm_vlapic_state.VM_VLAPIC_XAPIC) ∧
    ((∃ v ∈ vm.vcpus, v.vlapic_mode = vlapic_mode.x2apic) →
      (∃ v ∈ vm.vcpus, v.vlapic_mode = vlapic_mode.xapic) →
      (update_vm_vlapic_state vm).vlapic_state =
        vm_vlapic_state.VM_VLAPIC_TRANSITION) ∧
    (update_vm_vlapic_state (sample_vlapic_vm
        [vlapic_mode.x2apic, vlapic_mode.x2apic, vlapic_mode.disabled])).vlapic_state =
      vm_vlapic_state.VM_VLAPIC_X2APIC ∧
    (update_vm_vlapic_state (sample_vlapic_vm
        [vlapic_mode.x2apic, vlapic_mode.xapic])).vlapic_state =
      vm_vlapic_state.VM_VLAPIC_TRANSITION ∧
    (update_vm_vlapic_state (sample_vlapic_vm
        [vlapic_mode.disabled, vlapic_mode.disabled,
          vlapic_mode.disabled])).vlapic_state =
      vm_vlapic_state.VM_VLAPIC_DISABLED := by
  refine ⟨?_, ?_, ?_, ?_, by decide, by decide, by decide⟩
  · intro hall
    rw [update_vlapic_eval]
    rw [if_pos ⟨List.countP_eq_zero.mpr fun v hv => by
        simp [is_x2apic_enabled, hall v hv],
      List.countP_eq_zero.mpr fun v hv => by
        simp [is_xapic_enabled, hall v hv]⟩]
  · rintro ⟨v0, hv0, hm0⟩ hnone
    rw [update_vlapic_eval]
    have h2 : vm.vcpus.countP (fun v => is_x2apic_enabled v) ≠ 0 := by
      have hpos : 0 < vm.vcpus.countP (fun v => is_x2apic_enabled v) :=
        List.countP_pos_iff.mpr ⟨v0, hv0, by simp [is_x2apic_enabled, hm0]⟩
      omega
    have h3 : vm.vcpus.countP (fun v => is_xapic_enabled v) = 0 :=
      List.countP_eq_zero.mpr fun v hv => by
        simp only [is_xapic_enabled, beq_iff_eq]
        exact fun hc => hnone v hv (by simpa using hc)
    rw [if_neg (by rintro ⟨c1, -⟩; exact h2 c1),
      if_neg (by rintro ⟨-, c2⟩; exact c2 h3), if_pos h2]
  · rintro ⟨v0, hv0, hm0⟩ hnone
    rw [update_vlapic_eval]
    have h2 : vm.vcpus.countP (fun v => is_xapic_enabled v) ≠ 0 := by
      have hpos : 0 < vm.vcpus.countP (fun v => is_xapic_enabled v) :=
        List.countP_pos_iff.mpr ⟨v0, hv0, by simp [is_xapic_enabled, hm0]⟩
      omega
    have h3 : vm.vcpus.countP (fun v => is_x2apic_enabled v) = 0 :=
      List.countP_eq_zero.mpr fun v hv => by
        simp only [is_x2apic_enabled, beq_iff_eq]
        exact fun hc => hnone v hv (by simpa using hc)
    rw [if_neg (by rintro ⟨-, c2⟩; exact h2 c2),
      if_neg (by rintro ⟨c1, -⟩; exact c1 h3),
      if_neg (by intro hc; exact hc h3)]
  · rintro ⟨v0, hv0, hm0⟩ ⟨v1, hv1, hm1⟩
    rw [update_vlapic_eval]
    have h2 : vm.vcpus.countP (fun v => is_x2apic_enabled v) ≠ 0 := by
      have hpos : 0 < vm.vcpus.countP (fun v => is_x2apic_enabled v) :=
        List.countP_pos_iff.mpr ⟨v0, hv0, by simp [is_x2apic_enabled, hm0]⟩
      omega
    have h3 : vm.vcpus.countP (fun v => is_xapic_enabled v) ≠ 0 := by
      have hpos : 0 < vm.vcpus.countP (fun v => is_xapic_enabled v) :=
        List.countP_pos_iff.mpr ⟨v1, hv1, by simp [is_xapic_enabled, hm1]⟩
      omega
    rw [if_neg (by rintro ⟨c1, -⟩; exact h2 c1), if_pos ⟨h2, h3⟩]

/-! ### Platform inputs and the ServiceOS memory pipeline -/

/-- Summary of the platform e820 map (struct e820_mem_params, e820.h). -/
structure e820_mem_params where
  mem_bottom : Nat
  mem_top : Nat
  total_mem_size : Nat
deriving DecidableEq

/-- One physical EPC section (struct epc_section, sgx.h). -/
structure epc_section where
  base : Nat
  size : Nat
deriving DecidableEq

/-- Boot-time inputs of this translation unit: the raw e820 map and its
summary (e820.c), the hypervisor image range (hva2hpa(get_hv_image_base())
and CONFIG_HV_RAM_SIZE), the static VM configuration table (get_vm_config
over vm_id < CONFIG_MAX_VM_NUM), the physical EPC sections (sgx.c) and the
bound EPT_ADDRESS_SPACE(CONFIG_SOS_RAM_SIZE). -/
structure platform where
  e820_table : List e820_entry
  mem_info : e820_mem_params
  hv_image_base : Nat
  hv_ram_size : Nat
  vm_configs : List acrn_vm_config
  epc_secs : List epc_section
  sos_ept_address_space : Nat
deriving DecidableEq

/-- create_sos_vm_e820 (vm.c lines 283..311): copy the platform map, carve
out the hypervisor image range, set the service VM RAM total to
total_mem_size - CONFIG_HV_RAM_SIZE, then for every pre-launched VM carve out
its range and subtract its size.  Returns the carved table (stored in the VM
slot) and the final RAM total (stored in the service VM configuration). -/
def create_sos_vm_e820 (p : platform) : List e820_entry × Nat :=
  let hv_start_pa := p.hv_image_base
  let hv_end_pa := add64 hv_start_pa p.hv_ram_size
  let table1 := filter_mem_from_sos_e820 p.e820_table hv_start_pa hv_end_pa
  let size0 := sub64 p.mem_info.total_mem_size p.hv_ram_size
  p.vm_configs.foldl
    (fun ts vm_config =>
      if vm_config.load_order = load_order.PRE_LAUNCHED_VM then
        (filter_mem_from_sos_e820 ts.1 vm_config.memory_start_hpa
            (add64 vm_config.memory_start_hpa vm_config.memory_size),
          sub64 ts.2 vm_config.memory_size)
      else ts)
    (table1, size0)

/-- Modelled from the spec: add_region — ept_add_mr (ept.c, outside this
translation unit) maps the guest range `[gpa, gpa + size)`; only the mapped
domain is tracked, attributes are not. -/
def ept_add_mr (m : Nat → Bool) (gpa size : Nat) : Nat → Bool :=
  fun a => m a || (decide (gpa ≤ a) && decide (a < add64 gpa size))

/-- Modelled from the spec: modify_region_attr — ept_modify_mr changes the
caching attributes of an existing mapping and leaves the mapped domain
unchanged. -/
def ept_modify_mr (m : Nat → Bool) (gpa size : Nat) : Nat → Bool := m

/-- Modelled from the spec: remove_region — ept_del_mr unmaps the guest
range `[gpa, gpa + size)`. -/
def ept_del_mr (m : Nat → Bool) (gpa size : Nat) : Nat → Bool :=
  fun a => m a && !(decide (gpa ≤ a) && decide (a < add64 gpa size))

/-- The panic guard at the top of prepare_sos_vm_memmap (vm.c lines
339..341). -/
def prepare_sos_vm_memmap_panics (p : platform) : Prop :=
  p.sos_ept_address_space < p.mem_info.mem_top

instance (p : platform) : Decidable (prepare_sos_vm_memmap_panics p) := by
  unfold prepare_sos_vm_memmap_panics
  infer_instance

/-- prepare_sos_vm_memmap (vm.c lines 321..383) as the set of guest-physical
addresses mapped for the service VM: map the whole usable span
`[mem_bottom, mem_top)` uncached, upgrade the RAM entries of the carved table
to writeback in place, then unmap the EPC sections (stopping at the first
zero-sized one), the hypervisor image range and every pre-launched VM range.
The panic guard is split out as prepare_sos_vm_memmap_panics. -/
def prepare_sos_vm_memmap (p : platform) (table : List e820_entry) : Nat → Bool :=
  let m0 : Nat → Bool := fun _ => false
  let m1 := ept_add_mr m0 p.mem_info.mem_bottom
    (sub64 p.mem_info.mem_top p.mem_info.mem_bottom)
  let m2 := table.foldl
    (fun m en =>
      if en.type = E820_TYPE_RAM then ept_modify_mr m en.baseaddr en.length else m)
    m1
  let m3 := (p.epc_secs.takeWhile (fun sec => sec.size != 0)).foldl
    (fun m sec => ept_del_mr m sec.base sec.size) m2
  let m4 := ept_del_mr m3 p.hv_image_base p.hv_ram_size
  p.vm_configs.foldl
    (fun m vm_config =>
      if vm_config.load_order = load_order.PRE_LAUNCHED_VM then
        ept_del_mr m vm_config.memory_start_hpa vm_config.memory_size
      else m) m4

/-! ### create_vm -/

/-- Outcomes of the external calls create_vm makes, injected as inputs:
init_vm_boot_info (vboot_info.c), set_vcpuid_entries (vcpuid.c),
prepare_vcpu (vcpu.c; one return value per configured vCPU, 0 meaning
success) and the table create_prelaunched_vm_e820 (e820.c) installs for a
pre-launched VM. -/
structure create_env where
  init_vm_boot_info_ret : Int
  set_vcpuid_entries_ret : Int
  prepare_vcpu_ret : List Int
  prelaunched_e820 : List e820_entry
deriving DecidableEq

/-- ffs64 (bits.h, outside this translation unit): index of the lowest set
bit, INVALID_BIT_INDEX (0xffff) for zero; the lowest set bit of v is
v AND (v XOR (v - 1)). -/
def ffs64 (v : Nat) : Nat :=
  if v = 0 then 0xffff else Nat.log2 (Nat.land v (Nat.xor v (v - 1)))

/-- Modelled from the spec: prepare_vcpu (vcpu.c) creates one vCPU pinned to
the given physical core; a fresh vCPU starts in its initial state with its
vLAPIC set up in xAPIC mode. -/
def prepare_vcpu_model (pcpu_id : Nat) : acrn_vcpu :=
  { pcpu_id := pcpu_id, state := vcpu_state.VCPU_INIT,
    lapic_pt_enabled := false, vlapic_mode := vlapic_mode.xapic }

/-- The vCPU-creation loop at the end of create_vm (vm.c lines 542..554):
iterate over the configured affinities paired with the injected prepare_vcpu
results, appending one vCPU per success and stopping at the first failure. -/
def create_vcpus_loop (vm : acrn_vm) : List (Nat × Int) → Int × acrn_vm
  | [] => (0, vm)
  | (aff, ret) :: rest =>
    if ret = 0 then
      create_vcpus_loop
        { vm with vcpus := vm.vcpus ++ [prepare_vcpu_model (ffs64 aff)] } rest
    else (ret, vm)

/-- The prepare_vcpu results padded with successes to the configured vCPU
count, so that the loop shape matches the source loop bound. -/
def pad_rets (n : Nat) (l : List Int) : List Int :=
  (l ++ List.replicate n 0).take n

/-- The VM slot after the memset of create_vm and its first explicit stores
(vm.c lines 428..436): every field zeroed, then vm_id, created_vcpus and
emul_mmio_regions set and the EPT root page allocated.  The zero value of the
vLAPIC-state enum is immaterial — it is overwritten before use on every path
that completes creation — and is deliberately chosen here as a non-xAPIC
value so that theorems about the created state depend on the explicit
assignment at vm.c line 485. -/
def zero_vm (vm_id : Nat) : acrn_vm :=
  { vm_id := vm_id, state := vm_state.VM_POWERED_OFF, uuid := [],
    vcpus := [], vlapic_state := vm_vlapic_state.VM_VLAPIC_DISABLED,
    e820_entries := [], emul_mmio_regions := 0, wire_mode := 0,
    sworld_supported := false, sworld_active := false,
    is_completion_polling := false, vpci_active := false, vuart_active := false,
    ptdev_active := false, iommu_active := false, ept_active := true }

/-- The tail of create_vm after the load-order branch (vm.c lines 480..556):
on status 0, install the xAPIC vLAPIC default, the wire mode, the IO
completion-polling flag and the device-emulation collaborators, then run
set_vcpuid_entries and mark the VM created on its success; finally, on
status 0, run the vCPU-creation loop.  The cleanup path only memsets the EPT
root page, which changes no modelled field. -/
def create_vm_post (vm_config : acrn_vm_config) (env : create_env)
    (status : Int) (vm : acrn_vm) : Int × acrn_vm :=
  let r :=
    if status = 0 then
      let vm1 := { vm with
                   vlapic_state := vm_vlapic_state.VM_VLAPIC_XAPIC,
                   vpci_active := true, vuart_active := true,
                   wire_mode := VPIC_WIRE_INTR,
                   is_completion_polling :=
                     (vm_config.load_order == load_order.POST_LAUNCHED_VM) &&
                       (Nat.land vm_config.guest_flags
                         GUEST_FLAG_IO_COMPLETION_POLLING != 0) }
      if env.set_vcpuid_entries_ret = 0 then
        (0, { vm1 with state := vm_state.VM_CREATED })
      else (env.set_vcpuid_entries_ret, vm1)
    else (status, vm)
  if r.1 = 0 then
    create_vcpus_loop r.2
      ((vm_config.vcpu_affinity.take vm_config.vcpu_num).zip
        (pad_rets vm_config.vcpu_num env.prepare_vcpu_ret))
  else r

/-- create_vm (vm.c lines 419..557), with the outcomes of external calls
injected through env and the boot-time inputs through p; returns the C
return status, the VM slot contents and the (possibly updated) static
configuration of this VM.  The device-emulation and address-translation init
hooks (vpic, vioapic, vuart, vrtc, vpci, iommu, the trusty mapping) touch
collaborator state outside this translation unit; the service VM address
space built by prepare_sos_vm_memmap is derived separately from the carved
table this function stores in the slot. -/
def create_vm (vm_id : Nat) (vm_config : acrn_vm_config) (p : platform)
    (env : create_env) : Int × acrn_vm × acrn_vm_config :=
  let vm0 := { zero_vm vm_id with uuid := vm_config.uuid }
  let branch :=
    if vm_config.load_order = load_order.SOS_VM then
      let ts := create_sos_vm_e820 p
      (env.init_vm_boot_info_ret,
        { vm0 with e820_entries := ts.1 },
        { vm_config with memory_size := ts.2 })
    else
      let vm1 :=
        if Nat.land vm_config.guest_flags GUEST_FLAG_SECURE_WORLD_ENABLED != 0
        then { vm0 with sworld_supported := true } else vm0
      let cfg1 :=
        if vm_config.name = "" then
          { vm_config with name := "ACRN VM_" ++ toString vm_id }
        else vm_config
      if vm_config.load_order = load_order.PRE_LAUNCHED_VM then
        (env.init_vm_boot_info_ret,
          { vm1 with e820_entries := env.prelaunched_e820 }, cfg1)
      else (0, vm1, cfg1)
  let post := create_vm_post vm_config env branch.1 branch.2.1
  (post.1, post.2, branch.2.2)

/-! ### Claims C10 and C1 -/

theorem create_vcpus_loop_preserves (vm : acrn_vm) (l : List (Nat × Int)) :
    (create_vcpus_loop vm l).2.vlapic_state = vm.vlapic_state ∧
    (create_vcpus_loop vm l).2.state = vm.state ∧
    (create_vcpus_loop vm l).2.e820_entries = vm.e820_entries := by
  induction l generalizing vm with
  | nil => exact ⟨rfl, rfl, rfl⟩
  | cons hd rest ih =>
    rcases hd with ⟨aff, ret⟩
    simp only [create_vcpus_loop]
    split_ifs with hr
    · exact ih _
    · exact ⟨rfl, rfl, rfl⟩

theorem create_vm_post_e820 (vm_config : acrn_vm_config) (env : create_env)
    (status : Int) (vm : acrn_vm) :
    (create_vm_post vm_config env status vm).2.e820_entries = vm.e820_entries := by
  unfold create_vm_post
  dsimp only
  split_ifs <;> first
    | rfl
    | exact (create_vcpus_loop_preserves _ _).2.2

theorem create_vm_post_success (vm_config : acrn_vm_config) (env : create_env)
    (status : Int) (vm : acrn_vm)
    (h : (create_vm_post vm_config env status vm).1 = 0) :
    (create_vm_post vm_config env status vm).2.vlapic_state =
      vm_vlapic_state.VM_VLAPIC_XAPIC ∧
    (create_vm_post vm_config env status vm).2.state = vm_state.VM_CREATED := by
  unfold create_vm_post at h ⊢
  dsimp only at h ⊢
  split_ifs at h ⊢ with h1 h2 h3 <;> first
    | exact ⟨(create_vcpus_loop_preserves _ _).1,
        (create_vcpus_loop_preserves _ _).2.1⟩
    | exact absurd h (by assumption)
    | exact absurd rfl (by assumption)

/-- Claim C10: when create_vm returns success, the new VM's aggregate vLAPIC
mode is the legacy xAPIC default and its state is VM_CREATED. -/
theorem create_vm_success_initial_state (vm_id : Nat) (vm_config : acrn_vm_config)
    (p : platform) (env : create_env)
    (h : (create_vm vm_id vm_config p env).1 = 0) :
    (create_vm vm_id vm_config p env).2.1.vlapic_state =
      vm_vlapic_state.VM_VLAPIC_XAPIC ∧
    (create_vm vm_id vm_config p env).2.1.state = vm_state.VM_CREATED := by
  unfold create_vm at h ⊢
  dsimp only at h ⊢
  exact create_vm_post_success _ _ _ _ h

def sample_sos_config : acrn_vm_config :=
  { load_order := load_order.SOS_VM, name := "sos", uuid := [1],
    guest_flags := 0, vcpu_num := 0, vcpu_affinity := [],
    memory_start_hpa := 0, memory_size := 0 }

def sample_pre_config : acrn_vm_config :=
  { load_order := load_order.PRE_LAUNCHED_VM, name := "pre", uuid := [2],
    guest_flags := 0, vcpu_num := 0, vcpu_affinity := [],
    memory_start_hpa := 500, memory_size := 100 }

def sample_platform : platform :=
  { e820_table := [{ baseaddr := 0, length := 1000, type := E820_TYPE_RAM }],
    mem_info := { mem_bottom := 0, mem_top := 1000, total_mem_size := 1000 },
    hv_image_base := 100, hv_ram_size := 100,
    vm_configs := [sample_sos_config, sample_pre_config],
    epc_secs := [], sos_ept_address_space := 100000 }

theorem create_vm_success_initial_state_witness :
    (create_vm 1 (sample_config 0) sample_platform
        { init_vm_boot_info_ret := 0, set_vcpuid_entries_ret := 0,
          prepare_vcpu_ret := [0], prelaunched_e820 := [] }).1 = 0 ∧
    ((create_vm 1 (sample_config 0) sample_platform
        { init_vm_boot_info_ret := 0, set_vcpuid_entries_ret := 0,
          prepare_vcpu_ret := [0], prelaunched_e820 := [] }).2.1.vlapic_state =
        vm_vlapic_state.VM_VLAPIC_XAPIC ∧
      (create_vm 1 (sample_config 0) sample_platform
        { init_vm_boot_info_ret := 0, set_vcpuid_entries_ret := 0,
          prepare_vcpu_ret := [0], prelaunched_e820 := [] }).2.1.state =
        vm_state.VM_CREATED) :=
  ⟨by decide,
    create_vm_success_initial_state 1 (sample_config 0) sample_platform
      { init_vm_boot_info_ret := 0, set_vcpuid_entries_ret := 0,
        prepare_vcpu_ret := [0], prelaunched_e820 := [] } (by decide)⟩

theorem create_vm_sos_components (vm_id : Nat) (vm_config : acrn_vm_config)
    (p : platform) (env : create_env)
    (hso : vm_config.load_order = load_order.SOS_VM) :
    (create_vm vm_id vm_config p env).2.2.memory_size = (create_sos_vm_e820 p).2 ∧
    (create_vm vm_id vm_config p env).2.1.e820_entries =
      (create_sos_vm_e820 p).1 := by
  unfold create_vm
  dsimp only
  rw [if_pos hso]
  exact ⟨rfl, create_vm_post_e820 _ _ _ _⟩

theorem create_sos_size_fold (l : List acrn_vm_config) (t : List e820_entry)
    (sz : Nat) :
    (l.foldl
      (fun ts vm_config =>
        if vm_config.load_order = load_order.PRE_LAUNCHED_VM then
          (filter_mem_from_sos_e820 ts.1 vm_config.memory_start_hpa
              (add64 vm_config.memory_start_hpa vm_config.memory_size),
            sub64 ts.2 vm_config.memory_size)
        else ts)
      (t, sz)).2 =
    l.foldl
      (fun z vm_config =>
        if vm_config.load_order = load_order.PRE_LAUNCHED_VM then
          sub64 z vm_config.memory_size
        else z) sz := by
  induction l generalizing t sz with
  | nil => rfl
  | cons c rest ih =>
    simp only [List.foldl_cons]
    split_ifs with hc
    · exact ih _ _
    · exact ih _ _

theorem fold_sub_no_pre (l : List acrn_vm_config) (sz : Nat)
    (h : ∀ c ∈ l, c.load_order ≠ load_order.PRE_LAUNCHED_VM) :
    l.foldl
      (fun z vm_config =>
        if vm_config.load_order = load_order.PRE_LAUNCHED_VM then
          sub64 z vm_config.memory_size
        else z) sz = sz := by
  induction l generalizing sz with
  | nil => rfl
  | cons c rest ih =>
    simp only [List.foldl_cons, if_neg (h c (by simp))]
    exact ih sz fun x hx => h x (by simp [hx])

theorem size_fold_single (l : List acrn_vm_config) (preCfg : acrn_vm_config)
    (sz : Nat)
    (h : l.filter
      (fun c => decide (c.load_order = load_order.PRE_LAUNCHED_VM)) = [preCfg]) :
    l.foldl
      (fun z vm_config =>
        if vm_config.load_order = load_order.PRE_LAUNCHED_VM then
          sub64 z vm_config.memory_size
        else z) sz = sub64 sz preCfg.memory_size := by
  induction l generalizing sz with
  | nil => simp at h
  | cons c rest ih =>
    rw [List.filter_cons] at h
    split_ifs at h with hc
    · simp only [List.cons.injEq] at h
      obtain ⟨rfl, hrest⟩ := h
      have hcl : c.load_order = load_order.PRE_LAUNCHED_VM := of_decide_eq_true hc
      simp only [List.foldl_cons, if_pos hcl]
      apply fold_sub_no_pre
      intro x hx hpre
      have hnone := List.filter_eq_nil_iff.mp hrest x hx
      exact hnone (decide_eq_true hpre)
    · have hcl : c.load_order ≠ load_order.PRE_LAUNCHED_VM :=
        fun hp => hc (decide_eq_true hp)
      simp only [List.foldl_cons, if_neg hcl]
      exact ih _ h

theorem ept_del_fold_configs_false (l : List acrn_vm_config) (m : Nat → Bool)
    (a : Nat) (h : m a = false) :
    (l.foldl
      (fun m vm_config =>
        if vm_config.load_order = load_order.PRE_LAUNCHED_VM then
          ept_del_mr m vm_config.memory_start_hpa vm_config.memory_size
        else m) m) a = false := by
  induction l generalizing m with
  | nil => exact h
  | cons c rest ih =>
    simp only [List.foldl_cons]
    split_ifs with hc
    · exact ih _ (by simp [ept_del_mr, h])
    · exact ih _ h

theorem ept_del_fold_configs_hits (l : List acrn_vm_config) (m : Nat → Bool)
    (a : Nat) (c : acrn_vm_config) (hc : c ∈ l)
    (hpre : c.load_order = load_order.PRE_LAUNCHED_VM)
    (h1 : c.memory_start_hpa ≤ a)
    (h2 : a < add64 c.memory_start_hpa c.memory_size) :
    (l.foldl
      (fun m vm_config =>
        if vm_config.load_order = load_order.PRE_LAUNCHED_VM then
          ept_del_mr m vm_config.memory_start_hpa vm_config.memory_size
        else m) m) a = false := by
  induction l generalizing m with
  | nil => cases hc
  | cons d rest ih =>
    simp only [List.foldl_cons]
    rcases List.mem_cons.mp hc with rfl | hcr
    · rw [if_pos hpre]
      apply ept_del_fold_configs_false
      simp only [ept_del_mr]
      rw [decide_eq_true h1, decide_eq_true h2]
      simp
    · split_ifs with hd
      · exact ih _ hcr
      · exact ih _ hcr

/-- Claim C1: creating the ServiceOS VM against a platform map holding the
hypervisor image range and one pre-launched VM range leaves the configured
RAM total at platform total minus hypervisor image size minus the
pre-launched VM size, and the guest address space built for it maps no
address of the hypervisor range nor of the pre-launched VM range. -/
theorem create_sos_ram_total_and_exclusion (vm_id : Nat)
    (vm_config preCfg : acrn_vm_config) (p : platform) (env : create_env)
    (a : Nat)
    (hso : vm_config.load_order = load_order.SOS_VM)
    (hpre : p.vm_configs.filter
      (fun c => decide (c.load_order = load_order.PRE_LAUNCHED_VM)) = [preCfg])
    (hhv : p.hv_ram_size ≤ p.mem_info.total_mem_size)
    (hpsz : preCfg.memory_size ≤ p.mem_info.total_mem_size - p.hv_ram_size)
    (htot : p.mem_info.total_mem_size < pow64)
    (hhwf : p.hv_image_base + p.hv_ram_size < pow64)
    (hpwf : preCfg.memory_start_hpa + preCfg.memory_size < pow64)
    (hpanic : ¬ prepare_sos_vm_memmap_panics p)
    (ha : (p.hv_image_base ≤ a ∧ a < p.hv_image_base + p.hv_ram_size) ∨
      (preCfg.memory_start_hpa ≤ a ∧
        a < preCfg.memory_start_hpa + preCfg.memory_size)) :
    (create_vm vm_id vm_config p env).2.2.memory_size =
      p.mem_info.total_mem_size - p.hv_ram_size - preCfg.memory_size ∧
    prepare_sos_vm_memmap p
      ((create_vm vm_id vm_config p env).2.1.e820_entries) a = false := by
  obtain ⟨hsz, he8⟩ := create_vm_sos_components vm_id vm_config p env hso
  constructor
  · rw [hsz]
    unfold create_sos_vm_e820
    dsimp only
    rw [create_sos_size_fold, size_fold_single p.vm_configs preCfg _ hpre,
      sub64_eq hhv htot, sub64_eq hpsz (by omega)]
  · rw [he8]
    unfold prepare_sos_vm_memmap
    rcases ha with ⟨h1, h2⟩ | ⟨h1, h2⟩
    · apply ept_del_fold_configs_false
      simp only [ept_del_mr]
      rw [decide_eq_true h1, decide_eq_true (by rw [add64_eq hhwf]; exact h2)]
      simp
    · have hfmem : preCfg ∈ p.vm_configs.filter
          (fun c => decide (c.load_order = load_order.PRE_LAUNCHED_VM)) := by
        rw [hpre]
        exact List.mem_singleton_self _
      have hmem : preCfg ∈ p.vm_configs := List.mem_of_mem_filter hfmem
      have hprel : preCfg.load_order = load_order.PRE_LAUNCHED_VM :=
        of_decide_eq_true (List.mem_filter.mp hfmem).2
      exact ept_del_fold_configs_hits p.vm_configs _ a preCfg hmem hprel h1
        (by rw [add64_eq hpwf]; exact h2)

theorem create_sos_ram_total_and_exclusion_witness :
    (create_vm 0 sample_sos_config sample_platform
        { init_vm_boot_info_ret := 0, set_vcpuid_entries_ret := 0,
          prepare_vcpu_ret := [], prelaunched_e820 := [] }).2.2.memory_size =
      1000 - 100 - 100 ∧
    prepare_sos_vm_memmap sample_platform
      ((create_vm 0 sample_sos_config sample_platform
        { init_vm_boot_info_ret := 0, set_vcpuid_entries_ret := 0,
          prepare_vcpu_ret := [], prelaunched_e820 := [] }).2.1.e820_entries)
      150 = false :=
  create_sos_ram_total_and_exclusion 0 sample_sos_config sample_pre_config
    sample_platform
    { init_vm_boot_info_ret := 0, set_vcpuid_entries_ret := 0,
      prepare_vcpu_ret := [], prelaunched_e820 := [] } 150
    rfl (by decide) (by decide) (by decide) (by decide) (by decide) (by decide)
    (by decide) (Or.inl (by decide))
